import Mathlib

/-!
# FoodReserveApp: cart, validation and reservation history

A shallow embedding of the event handlers of `src/src/FoodReserveApp.jsx`
(`addToCart`, `updateQty`, `cartTotal`, `validateReservation`, `handleReserve`,
`confirmReserve`, `cancelReservation`) together with the properties the
specification states about them.

Modelling conventions.

* React state is an explicit record `AppState`; a handler is a function from the
  state at the time of the event to the state after it.
* A JavaScript object used as a dictionary (the cart) is the list of its own
  properties in enumeration order: canonical array-index keys in ascending numeric
  order first, then every other string key in creation order.
* Quantities and prices are integer-valued JavaScript numbers, written as `Int`.  The
  results of `+` and `*` are rounded as IEEE 754 binary64 does (`toDouble`: to the
  nearest double, ties to even, overflow to an infinity); `JsNum` adds the infinities
  and `NaN` to the integers.  The two zeros are not distinguished.
* A property that an object does not have (`undefined`) is `none`.
* The clock (`Date.now()`), the date parser (`new Date(string)`) and the answer to
  the `confirm` prompt are inputs of the handlers that read them.
-/

namespace FoodReserve

set_option exponentiation.threshold 1100

/-! ## Data model -/

/-- An entry of the menu, as in `SAMPLE_MENU`. -/
structure MenuItem where
  id : String
  name : String
  price : Int
  desc : String
deriving DecidableEq, Repr

/-- The fixed menu of the component. -/
def SAMPLE_MENU : List MenuItem :=
  [ ⟨"m1", "Hyderabadi Biryani (Chicken)", 220, "Fragrant basmati, spices, tender chicken"⟩,
    ⟨"m2", "Paneer Butter Masala", 160, "Creamy tomato curry with paneer cubes"⟩,
    ⟨"m3", "Street-style Dosa", 90, "Crispy dosa with coconut chutney"⟩,
    ⟨"m4", "Gulab Jamun (2pc)", 60, "Warm syrupy dessert"⟩ ]

/-- A JavaScript number that is an integer, an infinity or `NaN`. -/
inductive JsNum where
  | fin (n : Int)
  | posInf
  | negInf
  | nan
deriving DecidableEq, Repr

/-- A value of the cart object.  `addToCart` builds it as `{ ...item, qty }`, `updateQty`
as `{ ...prev[id], qty }`; the second form has no `id`, `name`, `price`, `desc` when
`prev[id]` is `undefined`, so these fields are optional. -/
structure CartLine where
  id : Option String
  name : Option String
  price : Option Int
  desc : Option String
  qty : Int
deriving DecidableEq, Repr

/-- The cart object: its own properties in enumeration order. -/
abbrev Cart := List (String × CartLine)

/-- The cart `{}`. -/
def emptyCart : Cart := []

/-! ## JavaScript object primitives -/

/-- ASCII decimal digit, the class `\d` of a JavaScript regular expression. -/
def isAsciiDigit (c : Char) : Bool := decide (48 ≤ c.toNat) && decide (c.toNat ≤ 57)

/-- The numeric value of a property key that is an array index: a canonical decimal
numeral (no leading zero unless it is "0") below `2^32 - 1`. -/
def arrayIndex? (k : String) : Option Nat :=
  match k.data with
  | [] => none
  | c :: cs =>
    if (c :: cs).all isAsciiDigit && (c != '0' || cs.isEmpty) then
      let n := (c :: cs).foldl (fun a d => 10 * a + (d.toNat - 48)) 0
      if n < 4294967295 then some n else none
    else none

/-- Whether a new key `k` is enumerated before the existing key `k2`: array indices come
first in ascending order, other keys after every existing key. -/
def keyPrecedes (k k2 : String) : Bool :=
  match arrayIndex? k, arrayIndex? k2 with
  | some i, some j => decide (i < j)
  | some _, none => true
  | none, _ => false

/-- The value of `obj[k]`, `none` for `undefined`. -/
def getProp : Cart → String → Option CartLine
  | [], _ => none
  | (k2, v) :: rest, k => if k2 = k then some v else getProp rest k

/-- Overwrite the value of the existing property `k`, keeping its position. -/
def replaceProp (k : String) (v : CartLine) : Cart → Cart
  | [] => []
  | (k2, v2) :: rest => if k2 = k then (k, v) :: rest else (k2, v2) :: replaceProp k v rest

/-- Create the property `k`, which the object does not have yet, at its place in the
enumeration order. -/
def insertProp (k : String) (v : CartLine) : Cart → Cart
  | [] => [(k, v)]
  | (k2, v2) :: rest =>
    if keyPrecedes k k2 then (k, v) :: (k2, v2) :: rest else (k2, v2) :: insertProp k v rest

/-- The object `{ ...obj, [k]: v }`. -/
def setProp (obj : Cart) (k : String) (v : CartLine) : Cart :=
  if (getProp obj k).isSome then replaceProp k v obj else insertProp k v obj

/-- The object `obj` after `delete obj[k]`. -/
def deleteProp : Cart → String → Cart
  | [], _ => []
  | (k2, v) :: rest, k => if k2 = k then deleteProp rest k else (k2, v) :: deleteProp rest k

/-- The list `Object.values(obj)`. -/
def objectValues (obj : Cart) : List CartLine := obj.map (fun p => p.2)

/-- The list `Object.keys(obj)`. -/
def objectKeys (obj : Cart) : List String := obj.map (fun p => p.1)

/-- The number `x || 0` for `x` an integer or `undefined`. -/
def orZero : Option Int → Int
  | some q => if q = 0 then 0 else q
  | none => 0

/-- The number of low bits of `n` that a 53-bit significand cannot hold: the least `e`
with `n / 2 ^ e < 2 ^ 53` (`fuel` bounds the recursion and `n` itself is enough). -/
def lostBits : Nat → Nat → Nat
  | 0, _ => 0
  | fuel + 1, n => if n < 9007199254740992 then 0 else lostBits fuel (n / 2) + 1

/-- The natural number `n` rounded to 53 significant bits, to nearest with ties to
even. -/
def roundNat (n : Nat) : Nat :=
  let e := lostBits n n
  let q := n / 2 ^ e
  let r := n % 2 ^ e
  if 2 * r < 2 ^ e then q * 2 ^ e
  else if 2 ^ e < 2 * r then (q + 1) * 2 ^ e
  else if q % 2 = 0 then q * 2 ^ e else (q + 1) * 2 ^ e

/-- The integer `x` rounded to 53 significant bits, to nearest with ties to even. -/
def roundInt (x : Int) : Int :=
  if 0 ≤ x then (roundNat x.toNat : Int) else -(roundNat (-x).toNat : Int)

/-- The double that an exact integer result is rounded to: `roundInt`, and an infinity
from `2 ^ 1024` on. -/
def toDouble (x : Int) : JsNum :=
  if 2 ^ 1024 ≤ (roundInt x).natAbs then (if 0 ≤ x then .posInf else .negInf)
  else .fin (roundInt x)

/-- The product `a * b` of a number and a number that may be `undefined` (then the
product is `NaN`). -/
def jsMul (a : Int) (b : Option Int) : JsNum :=
  match b with
  | some p => toDouble (a * p)
  | none => .nan

/-- The sum `s + x` of two numbers. -/
def jsAdd (s x : JsNum) : JsNum :=
  match s, x with
  | .fin a, .fin b => toDouble (a + b)
  | .nan, _ => .nan
  | _, .nan => .nan
  | .posInf, .negInf => .nan
  | .negInf, .posInf => .nan
  | .posInf, _ => .posInf
  | _, .posInf => .posInf
  | .negInf, _ => .negInf
  | _, .negInf => .negInf

/-! ## Cart handlers -/

/-- The state update of `addToCart(item)`:
`prev => ({ ...prev, [item.id]: { ...item, qty: (prev[item.id]?.qty || 0) + 1 } })`.
The sum is rounded to a double; a double plus 1 is below `2 ^ 1024`, so it does not
overflow. -/
def addToCart (item : MenuItem) (prev : Cart) : Cart :=
  let qty := roundInt (orZero ((getProp prev item.id).map (fun l => l.qty)) + 1)
  setProp prev item.id
    { id := some item.id, name := some item.name, price := some item.price,
      desc := some item.desc, qty := qty }

/-- The object `{ ...line, qty }` for `line = prev[id]`, possibly `undefined`. -/
def withQty (line : Option CartLine) (qty : Int) : CartLine :=
  match line with
  | some l => { l with qty := qty }
  | none => { id := none, name := none, price := none, desc := none, qty := qty }

/-- The state update of `updateQty(id, qty)`: delete the property when `qty <= 0`,
otherwise `{ ...prev, [id]: { ...prev[id], qty } }`. -/
def updateQty (id : String) (qty : Int) (prev : Cart) : Cart :=
  if qty ≤ 0 then deleteProp prev id
  else setProp prev id (withQty (getProp prev id) qty)

/-- The value of `cartTotal()`:
`Object.values(cart).reduce((s, it) => s + it.qty * it.price, 0)`. -/
def cartTotal (cart : Cart) : JsNum :=
  (objectValues cart).foldl (fun s it => jsAdd s (jsMul it.qty it.price)) (.fin 0)

/-! ## Reservation form and history -/

/-- An element of a reservation's `items`: `{ id: it.id, name: it.name, qty: it.qty,
price: it.price }` for a cart line `it`. -/
structure ReservedItem where
  id : Option String
  name : Option String
  qty : Int
  price : Option Int
deriving DecidableEq, Repr

/-- The record `payload` that `confirmReserve` stores. -/
structure Reservation where
  id : String
  name : String
  phone : String
  mode : String
  date : String
  time : String
  notes : String
  items : List ReservedItem
  total : JsNum
  createdAt : String
  status : String
deriving DecidableEq, Repr

/-- The `useState` cells of the component (the menu never changes and is the constant
`SAMPLE_MENU`). -/
structure AppState where
  cart : Cart
  name : String
  phone : String
  mode : String
  date : String
  time : String
  notes : String
  reservations : List Reservation
  showConfirm : Bool
  error : String
deriving DecidableEq, Repr

/-- The state after the first render with nothing in storage; `today` is
`format(new Date(), "yyyy-MM-dd")`. -/
def initialState (today : String) : AppState :=
  { cart := emptyCart, name := "", phone := "", mode := "pickup", date := today,
    time := "12:30", notes := "", reservations := [], showConfirm := false, error := "" }

/-- The code points `String.prototype.trim` removes: WhiteSpace and LineTerminator of
the ECMAScript grammar. -/
def isJsWhiteSpace (c : Char) : Bool :=
  let n := c.toNat
  n == 9 || n == 10 || n == 11 || n == 12 || n == 13 || n == 32 || n == 160 || n == 5760
    || (decide (8192 ≤ n) && decide (n ≤ 8202)) || n == 8232 || n == 8233 || n == 8239
    || n == 8287 || n == 12288 || n == 65279

/-- The string `s.trim()`. -/
def jsTrim (s : String) : String :=
  ⟨((s.data.dropWhile isJsWhiteSpace).reverse.dropWhile isJsWhiteSpace).reverse⟩

/-- Match `\d{n}$` against the remaining input. -/
def matchDigitsToEnd : Nat → List Char → Bool
  | 0, [] => true
  | 0, _ :: _ => false
  | _ + 1, [] => false
  | n + 1, c :: cs => isAsciiDigit c && matchDigitsToEnd n cs

/-- The test `/^\d{10}$/.test(phone)`. -/
def testTenDigits (phone : String) : Bool := matchDigitsToEnd 10 phone.data

/-- The function `validateReservation()`: it clears the error and returns the message of
the first failing check, `none` for `null`.  `parseDate` is `new Date(string).getTime()`
with `none` for `NaN`; `now` is `Date.now()`. -/
def validateReservation (parseDate : String → Option Int) (now : Int) (s : AppState) :
    AppState × Option String :=
  let s1 := { s with error := "" }
  if jsTrim s.name = "" then (s1, some "Please enter your name.")
  else if !testTenDigits s.phone then (s1, some "Please enter a valid 10-digit phone number.")
  else if (objectKeys s.cart).length = 0 then (s1, some "Cart is empty. Add items to reserve.")
  else
    match parseDate (s.date ++ "T" ++ s.time) with
    | none => (s1, some "Please pick a valid date and time.")
    | some selected =>
      if selected < now - 1000 * 60 then (s1, some "Please pick a future time.")
      else (s1, none)

/-- The handler `handleReserve()`: `if (v) return setError(v); setShowConfirm(true)`. -/
def handleReserve (parseDate : String → Option Int) (now : Int) (s : AppState) : AppState :=
  let r := validateReservation parseDate now s
  match r.2 with
  | some v => if v ≠ "" then { r.1 with error := v } else { r.1 with showConfirm := true }
  | none => { r.1 with showConfirm := true }

/-- The element of `items` made from a cart line. -/
def toReservedItem (it : CartLine) : ReservedItem :=
  { id := it.id, name := it.name, qty := it.qty, price := it.price }

/-- The handler `confirmReserve()`; `now` is the `Date.now()` of the identifier and
`createdAt` the `new Date().toISOString()` of the record. -/
def confirmReserve (now : Int) (createdAt : String) (s : AppState) : AppState :=
  let payload : Reservation :=
    { id := "res_" ++ toString now, name := s.name, phone := s.phone, mode := s.mode,
      date := s.date, time := s.time, notes := s.notes,
      items := (objectValues s.cart).map toReservedItem,
      total := cartTotal s.cart, createdAt := createdAt, status := "reserved" }
  { s with reservations := payload :: s.reservations, cart := emptyCart, name := "",
           phone := "", notes := "", showConfirm := false, error := "" }

/-- The handler `cancelReservation(id)`; `accepted` is the answer to the `confirm`
prompt. -/
def cancelReservation (accepted : Bool) (id : String) (s : AppState) : AppState :=
  if !accepted then s
  else { s with reservations :=
          s.reservations.map (fun r => if r.id = id then { r with status := "cancelled" } else r) }

/-! ## Events -/

/-- A sequence of cart handler calls. -/
inductive CartOp where
  | add (item : MenuItem)
  | upd (id : String) (qty : Int)
deriving DecidableEq, Repr

/-- The cart after one handler call. -/
def applyOp (op : CartOp) (c : Cart) : Cart :=
  match op with
  | .add item => addToCart item c
  | .upd id qty => updateQty id qty c

/-- The cart after a sequence of handler calls, first call first. -/
def runOps : List CartOp → Cart → Cart
  | [], c => c
  | op :: ops, c => runOps ops (applyOp op c)

/-- A call the rendered page makes: `addToCart` on an entry of the menu; `updateQty`
either with a non-positive quantity or on a line the cart has (the minus button passes
`Math.max(0, qty - 1)`, the cart editor is rendered per existing line). -/
def opFromPage (op : CartOp) (c : Cart) : Bool :=
  match op with
  | .add item => decide (item ∈ SAMPLE_MENU)
  | .upd id qty => decide (qty ≤ 0) || (getProp c id).isSome

/-- Every call of the sequence is one the rendered page makes in the cart it meets. -/
def opsFromPage : List CartOp → Cart → Bool
  | [], _ => true
  | op :: ops, c => opFromPage op c && opsFromPage ops (applyOp op c)

/-- An event of the page: an edit of a form field, a click on a button of the menu, of
the cart editor, of the form, of the confirm dialog or of the history. -/
inductive Event where
  | setName (v : String)
  | setPhone (v : String)
  | setMode (v : String)
  | setDate (v : String)
  | setTime (v : String)
  | setNotes (v : String)
  | addToCart (item : MenuItem)
  | updateQty (id : String) (qty : Int)
  | clearCart
  | handleReserve (now : Int)
  | closeConfirm
  | confirmReserve (now : Int) (createdAt : String)
  | cancelReservation (id : String) (accepted : Bool)
deriving DecidableEq, Repr

/-- The state after the handler of one event has run. -/
def applyEvent (parseDate : String → Option Int) (e : Event) (s : AppState) : AppState :=
  match e with
  | .setName v => { s with name := v }
  | .setPhone v => { s with phone := v }
  | .setMode v => { s with mode := v }
  | .setDate v => { s with date := v }
  | .setTime v => { s with time := v }
  | .setNotes v => { s with notes := v }
  | .addToCart item => { s with cart := addToCart item s.cart }
  | .updateQty id qty => { s with cart := updateQty id qty s.cart }
  | .clearCart => { s with cart := emptyCart, error := "" }
  | .handleReserve now => handleReserve parseDate now s
  | .closeConfirm => { s with showConfirm := false }
  | .confirmReserve now createdAt => confirmReserve now createdAt s
  | .cancelReservation id accepted => cancelReservation accepted id s

/-- The state after a sequence of events, first event first. -/
def runEvents (parseDate : String → Option Int) : List Event → AppState → AppState
  | [], s => s
  | e :: es, s => runEvents parseDate es (applyEvent parseDate e s)

/-- Every event of the sequence satisfies `ok` in the state it meets. -/
def allEvents (ok : Event → AppState → Bool) (parseDate : String → Option Int) :
    List Event → AppState → Bool
  | [], _ => true
  | e :: es, s => ok e s && allEvents ok parseDate es (applyEvent parseDate e s)

/-- The calls of the cart handlers that the rendered page makes: `addToCart` on an entry
of the menu; `updateQty` with a non-positive quantity or on a line the cart has.  Every
other event is unconstrained. -/
def cartCallFromPage (e : Event) (s : AppState) : Bool :=
  match e with
  | .addToCart item => decide (item ∈ SAMPLE_MENU)
  | .updateQty id qty => decide (qty ≤ 0) || (getProp s.cart id).isSome
  | _ => true

/-- The events of the rendered page: the cart calls above, and `confirmReserve` only
while the confirm dialog, which holds its button, is shown. -/
def eventFromPage (e : Event) (s : AppState) : Bool :=
  cartCallFromPage e s &&
    match e with
    | .confirmReserve _ _ => s.showConfirm
    | _ => true

/-- The exact product quantity × price of every item of a reservation, `none` for an
item without a price. -/
def itemProducts (r : Reservation) : List (Option Int) :=
  r.items.map (fun it => it.price.map (fun p => it.qty * p))

/-! ## Cart lines as the specification describes them -/

/-- The exact product quantity × price of every line of the cart, in the order of
`Object.values`, `none` for a line without a price. -/
def lineProducts (c : Cart) : List (Option Int) :=
  (objectValues c).map (fun l => l.price.map (fun p => l.qty * p))

/-- The line `l` stored under the key `k` is stored under its own id, has a positive
quantity and carries the name and price of the menu item with that id. -/
def LineFromMenu (k : String) (l : CartLine) : Prop :=
  l.id = some k ∧ 0 < l.qty ∧
    ∃ m ∈ SAMPLE_MENU, m.id = k ∧ l.name = some m.name ∧ l.price = some m.price

/-- Every line of the cart is a well-formed line of a menu item. -/
def CartInv (c : Cart) : Prop := ∀ p ∈ c, LineFromMenu p.1 p.2

/-- Every `addToCart` of the sequence is on an entry of the menu; `updateQty` is called
with any id and any quantity. -/
def opsOnMenu : List CartOp → Bool
  | [] => true
  | .add item :: ops => decide (item ∈ SAMPLE_MENU) && opsOnMenu ops
  | .upd _ _ :: ops => opsOnMenu ops

/-! ## The checks of the submission form, in the words of the specification -/

/-- The name is empty after trimming. -/
def NameBlank (s : AppState) : Prop := jsTrim s.name = ""

/-- The phone is not exactly ten decimal digits with nothing before or after. -/
def PhoneBad (s : AppState) : Prop :=
  ¬ (s.phone.data.length = 10 ∧ ∀ c ∈ s.phone.data, 48 ≤ c.toNat ∧ c.toNat ≤ 57)

/-- The cart has no lines. -/
def CartEmpty (s : AppState) : Prop := s.cart = emptyCart

/-- The text `date + "T" + time` does not parse to a valid instant. -/
def DateInvalid (parseDate : String → Option Int) (s : AppState) : Prop :=
  parseDate (s.date ++ "T" ++ s.time) = none

/-- The parsed instant is earlier than `now` minus 60 seconds (in milliseconds). -/
def DateTooEarly (parseDate : String → Option Int) (now : Int) (s : AppState) : Prop :=
  ∃ t, parseDate (s.date ++ "T" ++ s.time) = some t ∧ t < now - 60000

/-- Every item of the record has a price and a positive product, and the total of the
record is the sum of the products when that sum is at most `2 ^ 53`. -/
def TotalOk (r : Reservation) : Prop :=
  ∃ amounts : List Int, itemProducts r = amounts.map some
    ∧ (amounts.sum ≤ 2 ^ 53 → r.total = .fin amounts.sum)

/-- The cart is well formed and every record of the history has a correct total. -/
def TotalsInv (s : AppState) : Prop :=
  CartInv s.cart ∧ ∀ r ∈ s.reservations, TotalOk r

/-! ## Properties of the object primitives -/

theorem getProp_eq_none_iff (c : Cart) (k : String) :
    getProp c k = none ↔ ∀ p ∈ c, p.1 ≠ k := by
  induction c with
  | nil => simp [getProp]
  | cons p rest ih =>
    obtain ⟨k2, v⟩ := p
    by_cases h : k2 = k
    · simp [getProp, h]
    · simp [getProp, h, ih]

theorem getProp_mem (c : Cart) (k : String) (l : CartLine) (h : getProp c k = some l) :
    (k, l) ∈ c := by
  induction c with
  | nil => simp [getProp] at h
  | cons p rest ih =>
    obtain ⟨k2, v⟩ := p
    by_cases hk : k2 = k
    · simp [getProp, hk] at h
      simp [hk, h]
    · simp [getProp, hk] at h
      exact List.mem_cons_of_mem _ (ih h)

theorem getProp_replaceProp_self (c : Cart) (k : String) (v : CartLine)
    (h : (getProp c k).isSome = true) : getProp (replaceProp k v c) k = some v := by
  induction c with
  | nil => simp [getProp] at h
  | cons p rest ih =>
    obtain ⟨k2, v2⟩ := p
    by_cases hk : k2 = k
    · simp [replaceProp, getProp, hk]
    · simp [getProp, hk] at h
      simp [replaceProp, getProp, hk, ih h]

theorem getProp_replaceProp_ne (c : Cart) (k k1 : String) (v : CartLine) (hne : k1 ≠ k) :
    getProp (replaceProp k v c) k1 = getProp c k1 := by
  have h1 : ¬ k = k1 := fun e => hne e.symm
  induction c with
  | nil => simp [replaceProp]
  | cons p rest ih =>
    obtain ⟨k2, v2⟩ := p
    by_cases hk : k2 = k
    · subst hk
      simp [replaceProp, getProp, h1]
    · by_cases hk1 : k2 = k1
      · subst hk1
        simp [replaceProp, getProp, hk]
      · simp [replaceProp, getProp, hk, hk1, ih]

theorem getProp_insertProp_self (c : Cart) (k : String) (v : CartLine)
    (h : getProp c k = none) : getProp (insertProp k v c) k = some v := by
  induction c with
  | nil => simp [insertProp, getProp]
  | cons p rest ih =>
    obtain ⟨k2, v2⟩ := p
    by_cases hk : k2 = k
    · simp [getProp, hk] at h
    · simp [getProp, hk] at h
      by_cases hp : keyPrecedes k k2 = true
      · simp [insertProp, getProp, hp]
      · simp [insertProp, getProp, hp, hk, ih h]

theorem getProp_insertProp_ne (c : Cart) (k k1 : String) (v : CartLine) (hne : k1 ≠ k) :
    getProp (insertProp k v c) k1 = getProp c k1 := by
  have h1 : ¬ k = k1 := fun e => hne e.symm
  induction c with
  | nil => simp [insertProp, getProp, h1]
  | cons p rest ih =>
    obtain ⟨k2, v2⟩ := p
    by_cases hp : keyPrecedes k k2 = true
    · simp [insertProp, getProp, hp, h1]
    · by_cases hk1 : k2 = k1
      · subst hk1
        simp [insertProp, getProp, hp]
      · simp [insertProp, getProp, hp, hk1, ih]

theorem getProp_setProp_self (c : Cart) (k : String) (v : CartLine) :
    getProp (setProp c k v) k = some v := by
  unfold setProp
  by_cases h : (getProp c k).isSome = true
  · simp [h, getProp_replaceProp_self c k v h]
  · have hn : getProp c k = none := by
      cases hg : getProp c k with
      | none => rfl
      | some l => simp [hg] at h
    simp [h, getProp_insertProp_self c k v hn]

theorem getProp_setProp_ne (c : Cart) (k k1 : String) (v : CartLine) (hne : k1 ≠ k) :
    getProp (setProp c k v) k1 = getProp c k1 := by
  unfold setProp
  split
  · exact getProp_replaceProp_ne c k k1 v hne
  · exact getProp_insertProp_ne c k k1 v hne

theorem mem_deleteProp (c : Cart) (k : String) (p : String × CartLine) :
    p ∈ deleteProp c k ↔ p ∈ c ∧ p.1 ≠ k := by
  induction c with
  | nil => simp [deleteProp]
  | cons q rest ih =>
    obtain ⟨k2, v2⟩ := q
    by_cases hk : k2 = k
    · subst hk
      simp only [deleteProp, if_true, ih, List.mem_cons]
      constructor
      · rintro ⟨h1, h2⟩
        exact ⟨Or.inr h1, h2⟩
      · rintro ⟨h1 | h1, h2⟩
        · exact absurd (by rw [h1]) h2
        · exact ⟨h1, h2⟩
    · simp only [deleteProp, if_neg hk, ih, List.mem_cons]
      constructor
      · rintro (h1 | ⟨h1, h2⟩)
        · exact ⟨Or.inl h1, by rw [h1]; exact hk⟩
        · exact ⟨Or.inr h1, h2⟩
      · rintro ⟨h1 | h1, h2⟩
        · exact Or.inl h1
        · exact Or.inr ⟨h1, h2⟩

theorem getProp_deleteProp_self (c : Cart) (k : String) : getProp (deleteProp c k) k = none := by
  rw [getProp_eq_none_iff]
  intro p hp
  exact ((mem_deleteProp c k p).1 hp).2

theorem getProp_deleteProp_ne (c : Cart) (k k1 : String) (hne : k1 ≠ k) :
    getProp (deleteProp c k) k1 = getProp c k1 := by
  have h1 : ¬ k = k1 := fun e => hne e.symm
  induction c with
  | nil => simp [deleteProp]
  | cons p rest ih =>
    obtain ⟨k2, v2⟩ := p
    by_cases hk : k2 = k
    · subst hk
      simp [deleteProp, getProp, h1, ih]
    · by_cases hk1 : k2 = k1
      · subst hk1
        simp [deleteProp, getProp, hk]
      · simp [deleteProp, getProp, hk, hk1, ih]

theorem deleteProp_of_absent (c : Cart) (k : String) (h : getProp c k = none) :
    deleteProp c k = c := by
  induction c with
  | nil => simp [deleteProp]
  | cons p rest ih =>
    obtain ⟨k2, v2⟩ := p
    by_cases hk : k2 = k
    · simp [getProp, hk] at h
    · simp [getProp, hk] at h
      simp [deleteProp, hk, ih h]

theorem deleteProp_replaceProp (c : Cart) (k : String) (v : CartLine) :
    deleteProp (replaceProp k v c) k = deleteProp c k := by
  induction c with
  | nil => simp [replaceProp]
  | cons p rest ih =>
    obtain ⟨k2, v2⟩ := p
    by_cases hk : k2 = k
    · simp [replaceProp, deleteProp, hk]
    · simp [replaceProp, deleteProp, hk, ih]

theorem deleteProp_insertProp (c : Cart) (k : String) (v : CartLine) :
    deleteProp (insertProp k v c) k = deleteProp c k := by
  induction c with
  | nil => simp [insertProp, deleteProp]
  | cons p rest ih =>
    obtain ⟨k2, v2⟩ := p
    by_cases hp : keyPrecedes k k2 = true
    · simp [insertProp, deleteProp, hp]
    · by_cases hk : k2 = k
      · subst hk
        simp [insertProp, deleteProp, hp, ih]
      · simp [insertProp, deleteProp, hp, hk, ih]

theorem deleteProp_setProp (c : Cart) (k : String) (v : CartLine) :
    deleteProp (setProp c k v) k = deleteProp c k := by
  unfold setProp
  split
  · exact deleteProp_replaceProp c k v
  · exact deleteProp_insertProp c k v

theorem deleteProp_idem (c : Cart) (k : String) :
    deleteProp (deleteProp c k) k = deleteProp c k :=
  deleteProp_of_absent _ _ (getProp_deleteProp_self c k)

/-! ## Rounding to a double -/

theorem lostBits_of_lt (fuel n : Nat) (h : n < 9007199254740992) : lostBits fuel n = 0 := by
  cases fuel with
  | zero => rfl
  | succ f => simp [lostBits, h]

theorem roundNat_of_lt (n : Nat) (h : n < 9007199254740992) : roundNat n = n := by
  have h1 : n % 1 = 0 := Nat.mod_one n
  simp [roundNat, lostBits_of_lt n n h, h1]

theorem roundNat_of_le (n : Nat) (h : n ≤ 9007199254740992) : roundNat n = n := by
  rcases Nat.lt_or_ge n 9007199254740992 with h1 | h1
  · exact roundNat_of_lt n h1
  · have h2 : n = 9007199254740992 := Nat.le_antisymm h h1
    rw [h2]
    decide

theorem two_pow_lostBits_le (fuel n : Nat) (h : 1 ≤ n) : 2 ^ lostBits fuel n ≤ n := by
  induction fuel generalizing n with
  | zero => simpa [lostBits] using h
  | succ f ih =>
    by_cases h1 : n < 9007199254740992
    · simpa [lostBits, h1] using h
    · have h2 : 1 ≤ n / 2 := by omega
      have h3 := ih (n / 2) h2
      simp only [lostBits, if_neg h1, pow_succ]
      omega

theorem roundNat_pos (n : Nat) (h : 0 < n) : 0 < roundNat n := by
  have hle := two_pow_lostBits_le n n h
  have hpow : 0 < 2 ^ lostBits n n := pow_pos (by decide) _
  have hq : 0 < n / 2 ^ lostBits n n := Nat.div_pos hle hpow
  unfold roundNat
  simp only
  split
  · exact Nat.mul_pos hq hpow
  · split
    · exact Nat.mul_pos (Nat.succ_pos _) hpow
    · split
      · exact Nat.mul_pos hq hpow
      · exact Nat.mul_pos (Nat.succ_pos _) hpow

theorem roundInt_of_bounds (x : Int) (h1 : -9007199254740992 ≤ x) (h2 : x ≤ 9007199254740992) :
    roundInt x = x := by
  unfold roundInt
  split
  · rw [roundNat_of_le x.toNat (by omega)]
    omega
  · rw [roundNat_of_le (-x).toNat (by omega)]
    omega

theorem roundInt_pos (x : Int) (h : 0 < x) : 0 < roundInt x := by
  unfold roundInt
  rw [if_pos (le_of_lt h)]
  have := roundNat_pos x.toNat (by omega)
  omega

theorem toDouble_of_bounds (x : Int) (h1 : 0 ≤ x) (h2 : x ≤ 9007199254740992) :
    toDouble x = .fin x := by
  have hr := roundInt_of_bounds x (by omega) h2
  unfold toDouble
  rw [hr]
  have hx : x.natAbs ≤ 9007199254740992 := by omega
  have hbig : (9007199254740992 : Nat) < 2 ^ 1024 := by decide
  have hlt : ¬ 2 ^ 1024 ≤ x.natAbs := fun hcon =>
    absurd (lt_of_le_of_lt (le_trans hcon hx) hbig) (lt_irrefl _)
  rw [if_neg hlt]

/-- The rounding at the first integers that are not doubles, at a tie broken upwards,
just below a power of two, and at the product `(2 ^ 53 - 1) * 220`. -/
theorem toDouble_examples :
    toDouble 9007199254740993 = .fin 9007199254740992
    ∧ toDouble 9007199254740995 = .fin 9007199254740996
    ∧ toDouble (-9007199254740993) = .fin (-9007199254740992)
    ∧ toDouble 18014398509481983 = .fin 18014398509481984
    ∧ toDouble 1981583836043018020 = .fin 1981583836043017984 := by
  refine ⟨by decide, by decide, by decide, by decide, by decide⟩

/-! ## The cart handlers on one call -/

/-- C6, as the code has it. `addToCart(item)` leaves under `item.id` the line with the
name, price and description of the item; its quantity is the previous quantity plus one
whenever that sum is at most `2 ^ 53` in absolute value, so that the double addition of
the code is exact, and 1 when the cart had no line for `item.id` (in particular after
`updateQty(item.id, 0)` removed it, whatever the cart was); every other property of the
cart is untouched. -/
theorem addToCart_spec (item : MenuItem) (prev : Cart) :
    (∀ l, getProp prev item.id = some l →
        -9007199254740992 ≤ l.qty + 1 → l.qty + 1 ≤ 9007199254740992 →
        getProp (addToCart item prev) item.id
          = some ⟨some item.id, some item.name, some item.price, some item.desc, l.qty + 1⟩)
    ∧ (getProp prev item.id = none →
        getProp (addToCart item prev) item.id
          = some ⟨some item.id, some item.name, some item.price, some item.desc, 1⟩)
    ∧ getProp (addToCart item (updateQty item.id 0 prev)) item.id
          = some ⟨some item.id, some item.name, some item.price, some item.desc, 1⟩
    ∧ (∀ k, k ≠ item.id → getProp (addToCart item prev) k = getProp prev k)
    ∧ deleteProp (addToCart item prev) item.id = deleteProp prev item.id := by
  have hq : ∀ q : Int, (if q = 0 then (0 : Int) else q) = q := by
    intro q
    split <;> simp_all
  have h1 : roundInt 1 = 1 := by decide
  refine ⟨?_, ?_, ?_, ?_, ?_⟩
  · intro l hl hlo hhi
    simp [addToCart, getProp_setProp_self, hl, orZero, hq,
      roundInt_of_bounds (l.qty + 1) hlo hhi]
  · intro hn
    simp [addToCart, getProp_setProp_self, hn, orZero, h1]
  · have hn : getProp (updateQty item.id 0 prev) item.id = none := by
      simp [updateQty, getProp_deleteProp_self]
    simp [addToCart, getProp_setProp_self, hn, orZero, h1]
  · intro k hk
    exact getProp_setProp_ne _ _ _ _ hk
  · exact deleteProp_setProp _ _ _

/-- C6, as stated, fails. The biryani is added, its quantity is set to `2 ^ 53` in the
quantity box, and it is added again: the quantity stays `2 ^ 53`, not `2 ^ 53 + 1`,
because the double nearest to `2 ^ 53 + 1` is `2 ^ 53`. -/
theorem addToCart_large_quantity_counterexample :
    getProp (runOps [CartOp.add ⟨"m1", "Hyderabadi Biryani (Chicken)", 220,
          "Fragrant basmati, spices, tender chicken"⟩,
        CartOp.upd "m1" 9007199254740992] emptyCart) "m1"
      = some ⟨some "m1", some "Hyderabadi Biryani (Chicken)", some 220,
          some "Fragrant basmati, spices, tender chicken", 9007199254740992⟩
    ∧ getProp (addToCart ⟨"m1", "Hyderabadi Biryani (Chicken)", 220,
          "Fragrant basmati, spices, tender chicken"⟩
        (runOps [CartOp.add ⟨"m1", "Hyderabadi Biryani (Chicken)", 220,
          "Fragrant basmati, spices, tender chicken"⟩,
        CartOp.upd "m1" 9007199254740992] emptyCart)) "m1"
      = some ⟨some "m1", some "Hyderabadi Biryani (Chicken)", some 220,
          some "Fragrant basmati, spices, tender chicken", 9007199254740992⟩
    ∧ (9007199254740992 : Int) ≠ 9007199254740992 + 1 := by
  refine ⟨by decide, by decide, by decide⟩

/-- C7. `updateQty(id, qty)` with `qty <= 0` leaves no line for `id` and is the identity
when there was none; with `qty > 0` on an existing line it leaves that line with the
quantity `qty` and the same id, name, price and description; in both cases every other
property of the cart is untouched. -/
theorem updateQty_spec (id : String) (qty : Int) (prev : Cart) :
    (qty ≤ 0 → getProp (updateQty id qty prev) id = none)
    ∧ (qty ≤ 0 → getProp prev id = none → updateQty id qty prev = prev)
    ∧ (0 < qty → ∀ l, getProp prev id = some l →
        getProp (updateQty id qty prev) id = some ⟨l.id, l.name, l.price, l.desc, qty⟩)
    ∧ (∀ k, k ≠ id → getProp (updateQty id qty prev) k = getProp prev k)
    ∧ deleteProp (updateQty id qty prev) id = deleteProp prev id := by
  refine ⟨?_, ?_, ?_, ?_, ?_⟩
  · intro hq
    simp [updateQty, hq, getProp_deleteProp_self]
  · intro hq hn
    simp [updateQty, hq, deleteProp_of_absent prev id hn]
  · intro hq l hl
    have hq2 : ¬ qty ≤ 0 := not_le.mpr hq
    simp [updateQty, hq2, getProp_setProp_self, hl, withQty]
  · intro k hk
    unfold updateQty
    split
    · exact getProp_deleteProp_ne _ _ _ hk
    · exact getProp_setProp_ne _ _ _ _ hk
  · unfold updateQty
    split
    · exact deleteProp_idem _ _
    · exact deleteProp_setProp _ _ _

/-! ## Invariant of the cart -/

theorem mem_replaceProp (c : Cart) (k : String) (v : CartLine) (p : String × CartLine)
    (h : p ∈ replaceProp k v c) : p = (k, v) ∨ p ∈ c := by
  induction c with
  | nil => simp [replaceProp] at h
  | cons q rest ih =>
    obtain ⟨k2, v2⟩ := q
    by_cases hk : k2 = k
    · simp only [replaceProp, if_pos hk, List.mem_cons] at h
      rcases h with h | h
      · exact Or.inl h
      · exact Or.inr (List.mem_cons_of_mem _ h)
    · simp only [replaceProp, if_neg hk, List.mem_cons] at h
      rcases h with h | h
      · exact Or.inr (by rw [h]; exact List.mem_cons_self _ _)
      · rcases ih h with h2 | h2
        · exact Or.inl h2
        · exact Or.inr (List.mem_cons_of_mem _ h2)

theorem mem_insertProp (c : Cart) (k : String) (v : CartLine) (p : String × CartLine)
    (h : p ∈ insertProp k v c) : p = (k, v) ∨ p ∈ c := by
  induction c with
  | nil => simpa [insertProp] using h
  | cons q rest ih =>
    obtain ⟨k2, v2⟩ := q
    by_cases hp : keyPrecedes k k2 = true
    · simp only [insertProp, if_pos hp, List.mem_cons] at h
      rcases h with h | h | h
      · exact Or.inl h
      · exact Or.inr (by rw [h]; exact List.mem_cons_self _ _)
      · exact Or.inr (List.mem_cons_of_mem _ h)
    · simp only [insertProp, if_neg hp, List.mem_cons] at h
      rcases h with h | h
      · exact Or.inr (by rw [h]; exact List.mem_cons_self _ _)
      · rcases ih h with h2 | h2
        · exact Or.inl h2
        · exact Or.inr (List.mem_cons_of_mem _ h2)

theorem mem_setProp (c : Cart) (k : String) (v : CartLine) (p : String × CartLine)
    (h : p ∈ setProp c k v) : p = (k, v) ∨ p ∈ c := by
  unfold setProp at h
  split at h
  · exact mem_replaceProp c k v p h
  · exact mem_insertProp c k v p h

theorem cartInv_empty : CartInv emptyCart := by
  intro p hp
  simp [emptyCart] at hp

theorem cartInv_setProp (c : Cart) (k : String) (v : CartLine) (hc : CartInv c)
    (hv : LineFromMenu k v) : CartInv (setProp c k v) := by
  intro p hp
  rcases mem_setProp c k v p hp with h | h
  · rw [h]
    exact hv
  · exact hc p h

theorem cartInv_deleteProp (c : Cart) (k : String) (hc : CartInv c) :
    CartInv (deleteProp c k) := by
  intro p hp
  exact hc p ((mem_deleteProp c k p).1 hp).1

theorem cartInv_addToCart (item : MenuItem) (c : Cart) (hc : CartInv c)
    (hm : item ∈ SAMPLE_MENU) : CartInv (addToCart item c) := by
  unfold addToCart
  apply cartInv_setProp c _ _ hc
  refine ⟨rfl, ?_, item, hm, rfl, rfl, rfl⟩
  apply roundInt_pos
  cases hg : getProp c item.id with
  | none => simp [orZero]
  | some l =>
    have hl : 0 < l.qty := (hc _ (getProp_mem c item.id l hg)).2.1
    have hl0 : l.qty ≠ 0 := ne_of_gt hl
    simp only [Option.map_some', orZero, if_neg hl0]
    omega

theorem cartInv_updateQty (id : String) (qty : Int) (c : Cart) (hc : CartInv c)
    (hcall : qty ≤ 0 ∨ (getProp c id).isSome = true) : CartInv (updateQty id qty c) := by
  unfold updateQty
  by_cases hq : qty ≤ 0
  · rw [if_pos hq]
    exact cartInv_deleteProp c id hc
  · rw [if_neg hq]
    rcases hcall with h | h
    · exact absurd h hq
    · cases hg : getProp c id with
      | none => simp [hg] at h
      | some l =>
        obtain ⟨h1, _, h3⟩ := hc _ (getProp_mem c id l hg)
        apply cartInv_setProp c _ _ hc
        exact ⟨h1, not_le.mp hq, h3⟩

theorem cartInv_applyOp (op : CartOp) (c : Cart) (hc : CartInv c)
    (hop : opFromPage op c = true) : CartInv (applyOp op c) := by
  cases op with
  | add item =>
    apply cartInv_addToCart item c hc
    simpa [opFromPage] using hop
  | upd id qty =>
    apply cartInv_updateQty id qty c hc
    simpa [opFromPage] using hop

theorem cartInv_runOps (ops : List CartOp) (c : Cart) (hc : CartInv c)
    (h : opsFromPage ops c = true) : CartInv (runOps ops c) := by
  induction ops generalizing c with
  | nil => exact hc
  | cons op ops ih =>
    simp only [opsFromPage, Bool.and_eq_true] at h
    exact ih _ (cartInv_applyOp op c hc h.1) h.2

/-- C9, as the code has it. In every cart reached from the empty cart by `addToCart` on
menu items and by `updateQty` called with a non-positive quantity or on a line the cart
has, every line is stored under its own item id, has a positive quantity and carries the
name and price of the menu item with that id. -/
theorem cart_lines_well_formed (ops : List CartOp) (h : opsFromPage ops emptyCart = true) :
    ∀ k l, (k, l) ∈ runOps ops emptyCart →
      l.id = some k ∧ 0 < l.qty ∧
        ∃ m ∈ SAMPLE_MENU, m.id = k ∧ l.name = some m.name ∧ l.price = some m.price := by
  intro k l hkl
  exact cartInv_runOps ops emptyCart cartInv_empty h (k, l) hkl

/-- Witness of `cart_lines_well_formed`: add the biryani twice, the dosa once, set the
biryani to 5 and remove the dosa. -/
theorem cart_lines_well_formed_witness :
    opsFromPage [CartOp.add ⟨"m1", "Hyderabadi Biryani (Chicken)", 220,
          "Fragrant basmati, spices, tender chicken"⟩,
        CartOp.add ⟨"m1", "Hyderabadi Biryani (Chicken)", 220,
          "Fragrant basmati, spices, tender chicken"⟩,
        CartOp.add ⟨"m3", "Street-style Dosa", 90, "Crispy dosa with coconut chutney"⟩,
        CartOp.upd "m1" 5, CartOp.upd "m3" 0] emptyCart = true
    ∧ ∀ k l, (k, l) ∈ runOps [CartOp.add ⟨"m1", "Hyderabadi Biryani (Chicken)", 220,
          "Fragrant basmati, spices, tender chicken"⟩,
        CartOp.add ⟨"m1", "Hyderabadi Biryani (Chicken)", 220,
          "Fragrant basmati, spices, tender chicken"⟩,
        CartOp.add ⟨"m3", "Street-style Dosa", 90, "Crispy dosa with coconut chutney"⟩,
        CartOp.upd "m1" 5, CartOp.upd "m3" 0] emptyCart →
      l.id = some k ∧ 0 < l.qty ∧
        ∃ m ∈ SAMPLE_MENU, m.id = k ∧ l.name = some m.name ∧ l.price = some m.price :=
  ⟨by decide, cart_lines_well_formed _ (by decide)⟩

/-- C9, as stated, fails. `updateQty("zzz", 5)` on the empty cart, a sequence with no
`addToCart` at all and an arbitrary id, leaves under "zzz" the line `{ qty: 5 }`, which
has no id, no name and no price. -/
theorem cart_lines_arbitrary_id_counterexample :
    opsOnMenu [CartOp.upd "zzz" 5] = true
    ∧ runOps [CartOp.upd "zzz" 5] emptyCart = [("zzz", ⟨none, none, none, none, 5⟩)]
    ∧ ¬ (∀ k l, (k, l) ∈ runOps [CartOp.upd "zzz" 5] emptyCart →
          l.id = some k ∧ 0 < l.qty ∧
            ∃ m ∈ SAMPLE_MENU, m.id = k ∧ l.name = some m.name ∧ l.price = some m.price) := by
  have hrun : runOps [CartOp.upd "zzz" 5] emptyCart = [("zzz", ⟨none, none, none, none, 5⟩)] := by
    decide
  refine ⟨by decide, hrun, ?_⟩
  intro hall
  have h := (hall "zzz" ⟨none, none, none, none, 5⟩ (by rw [hrun]; exact List.mem_singleton.2 rfl)).1
  simp at h

/-! ## The cart total -/

theorem menu_price_pos (m : MenuItem) (h : m ∈ SAMPLE_MENU) : 0 < m.price := by
  simp only [SAMPLE_MENU, List.mem_cons, List.mem_singleton, List.not_mem_nil, or_false] at h
  rcases h with h | h | h | h <;> rw [h] <;> decide

theorem foldl_total (ls : List CartLine) (amounts : List Int) (acc : Int)
    (h : ls.map (fun l => l.price.map (fun p => l.qty * p)) = amounts.map some)
    (hpos : ∀ a ∈ amounts, 0 ≤ a) (hacc : 0 ≤ acc)
    (hsum : acc + amounts.sum ≤ 9007199254740992) :
    ls.foldl (fun s it => jsAdd s (jsMul it.qty it.price)) (.fin acc)
      = .fin (acc + amounts.sum) := by
  induction ls generalizing amounts acc with
  | nil =>
    cases amounts with
    | nil => simp
    | cons a as => simp at h
  | cons l ls ih =>
    cases amounts with
    | nil => simp at h
    | cons a as =>
      simp only [List.map_cons, List.cons.injEq] at h
      obtain ⟨h1, h2⟩ := h
      have ha : 0 ≤ a := hpos a (List.mem_cons_self _ _)
      have has : ∀ b ∈ as, 0 ≤ b := fun b hb => hpos b (List.mem_cons_of_mem _ hb)
      have hrest : 0 ≤ as.sum := List.sum_nonneg has
      rw [List.sum_cons] at hsum
      obtain ⟨p, hp, hpa⟩ : ∃ p, l.price = some p ∧ l.qty * p = a := by
        cases hprice : l.price with
        | none => simp [hprice] at h1
        | some p => exact ⟨p, rfl, by simpa [hprice] using h1⟩
      have hmul : jsMul l.qty l.price = .fin a := by
        rw [hp]
        simp only [jsMul, hpa]
        exact toDouble_of_bounds a ha (by omega)
      have hstep : jsAdd (.fin acc) (jsMul l.qty l.price) = .fin (acc + a) := by
        rw [hmul]
        simp only [jsAdd]
        exact toDouble_of_bounds (acc + a) (by omega) (by omega)
      rw [List.foldl_cons, hstep, ih as (acc + a) h2 has (by omega) (by omega),
        List.sum_cons, add_assoc]

theorem lineProducts_of_cartInv (c : Cart) (hc : CartInv c) :
    ∃ amounts : List Int, lineProducts c = amounts.map some ∧ ∀ a ∈ amounts, 0 ≤ a := by
  induction c with
  | nil => exact ⟨[], rfl, by simp⟩
  | cons p rest ih =>
    obtain ⟨amounts, ha, hpos⟩ := ih (fun q hq => hc q (List.mem_cons_of_mem _ hq))
    obtain ⟨_, hqty, m, hm, _, _, hprice⟩ := hc p (List.mem_cons_self _ _)
    refine ⟨(p.2.qty * m.price) :: amounts, ?_, ?_⟩
    · have ha2 : List.map (fun l => l.price.map (fun q => l.qty * q)) (objectValues rest)
          = List.map some amounts := ha
      simp [lineProducts, objectValues, hprice] at ha2 ⊢
      exact ha2
    · intro a hmem
      rcases List.mem_cons.1 hmem with h | h
      · rw [h]
        exact le_of_lt (mul_pos hqty (menu_price_pos m hm))
      · exact hpos a h

theorem cartTotal_of_cartInv (c : Cart) (hc : CartInv c) :
    ∃ amounts : List Int, lineProducts c = amounts.map some
      ∧ (amounts.sum ≤ 9007199254740992 → cartTotal c = .fin amounts.sum) := by
  obtain ⟨amounts, ha, hpos⟩ := lineProducts_of_cartInv c hc
  refine ⟨amounts, ha, ?_⟩
  intro hsum
  have h := foldl_total (objectValues c) amounts 0 ha hpos (le_refl 0) (by omega)
  simpa [cartTotal] using h

theorem deleteProp_eq_filter (c : Cart) (k : String) :
    deleteProp c k = c.filter (fun p => decide (p.1 ≠ k)) := by
  induction c with
  | nil => rfl
  | cons p rest ih =>
    obtain ⟨k2, v2⟩ := p
    by_cases hk : k2 = k
    · simp [deleteProp, List.filter, hk, ih]
    · simp [deleteProp, List.filter, hk, ih]

/-- C8, as the code has it. The empty cart has total 0.  After any sequence of calls of
`addToCart` on menu items and of `updateQty` with a non-positive quantity or on a line
the cart has, made from the empty cart, every line has a price, and whenever the sum of
quantity × price over the lines the cart has is at most `2 ^ 53`, `cartTotal` is that
sum; after a further `updateQty` with a non-positive quantity the same holds of the
lines stored under the other ids, so a removed line contributes nothing. -/
theorem cartTotal_after_ops (ops : List CartOp) (h : opsFromPage ops emptyCart = true) :
    cartTotal emptyCart = .fin 0
    ∧ (∃ amounts : List Int,
        (objectValues (runOps ops emptyCart)).map (fun l => l.price.map (fun p => l.qty * p))
          = amounts.map some
        ∧ (amounts.sum ≤ 9007199254740992 →
            cartTotal (runOps ops emptyCart) = .fin amounts.sum))
    ∧ (∀ (id : String) (qty : Int), qty ≤ 0 →
        ∃ amounts : List Int,
          (objectValues ((runOps ops emptyCart).filter (fun p => decide (p.1 ≠ id)))).map
              (fun l => l.price.map (fun p => l.qty * p)) = amounts.map some
          ∧ (amounts.sum ≤ 9007199254740992 →
              cartTotal (updateQty id qty (runOps ops emptyCart)) = .fin amounts.sum)) := by
  have hinv := cartInv_runOps ops emptyCart cartInv_empty h
  refine ⟨rfl, cartTotal_of_cartInv _ hinv, ?_⟩
  intro id qty hq
  have hd := cartInv_deleteProp _ id hinv
  obtain ⟨amounts, h1, h2⟩ := cartTotal_of_cartInv _ hd
  refine ⟨amounts, ?_, ?_⟩
  · rw [← deleteProp_eq_filter]
    exact h1
  · simp only [updateQty, if_pos hq]
    exact h2

/-- Witness of `cartTotal_after_ops`: two biryani and one paneer are calls of the page
and give the total 600 = 440 + 160. -/
theorem cartTotal_after_ops_witness :
    opsFromPage [CartOp.add ⟨"m1", "Hyderabadi Biryani (Chicken)", 220,
          "Fragrant basmati, spices, tender chicken"⟩,
        CartOp.add ⟨"m2", "Paneer Butter Masala", 160,
          "Creamy tomato curry with paneer cubes"⟩,
        CartOp.add ⟨"m1", "Hyderabadi Biryani (Chicken)", 220,
          "Fragrant basmati, spices, tender chicken"⟩] emptyCart = true
    ∧ cartTotal (runOps [CartOp.add ⟨"m1", "Hyderabadi Biryani (Chicken)", 220,
          "Fragrant basmati, spices, tender chicken"⟩,
        CartOp.add ⟨"m2", "Paneer Butter Masala", 160,
          "Creamy tomato curry with paneer cubes"⟩,
        CartOp.add ⟨"m1", "Hyderabadi Biryani (Chicken)", 220,
          "Fragrant basmati, spices, tender chicken"⟩] emptyCart) = .fin 600
    ∧ ∃ amounts : List Int,
        (objectValues (runOps [CartOp.add ⟨"m1", "Hyderabadi Biryani (Chicken)", 220,
          "Fragrant basmati, spices, tender chicken"⟩,
        CartOp.add ⟨"m2", "Paneer Butter Masala", 160,
          "Creamy tomato curry with paneer cubes"⟩,
        CartOp.add ⟨"m1", "Hyderabadi Biryani (Chicken)", 220,
          "Fragrant basmati, spices, tender chicken"⟩] emptyCart)).map
            (fun l => l.price.map (fun p => l.qty * p)) = amounts.map some
        ∧ (amounts.sum ≤ 9007199254740992 →
            cartTotal (runOps [CartOp.add ⟨"m1", "Hyderabadi Biryani (Chicken)", 220,
          "Fragrant basmati, spices, tender chicken"⟩,
        CartOp.add ⟨"m2", "Paneer Butter Masala", 160,
          "Creamy tomato curry with paneer cubes"⟩,
        CartOp.add ⟨"m1", "Hyderabadi Biryani (Chicken)", 220,
          "Fragrant basmati, spices, tender chicken"⟩] emptyCart) = .fin amounts.sum) :=
  ⟨by decide, by decide, (cartTotal_after_ops _ (by decide)).2.1⟩

/-- C8, as stated, fails. With `updateQty("zzz", 5)` on the empty cart the line has no
price and `cartTotal` is `NaN`.  With the calls of the page add biryani, set its quantity
to `2 ^ 53 - 1`, add gulab jamun, the products are 1981583836043018020 and 60, whose sum
is 1981583836043018080, and `cartTotal` is the double 1981583836043017984. -/
theorem cartTotal_counterexample :
    opsOnMenu [CartOp.upd "zzz" 5] = true
    ∧ cartTotal (runOps [CartOp.upd "zzz" 5] emptyCart) = .nan
    ∧ opsFromPage [CartOp.add ⟨"m1", "Hyderabadi Biryani (Chicken)", 220,
          "Fragrant basmati, spices, tender chicken"⟩,
        CartOp.upd "m1" 9007199254740991,
        CartOp.add ⟨"m4", "Gulab Jamun (2pc)", 60, "Warm syrupy dessert"⟩] emptyCart = true
    ∧ lineProducts (runOps [CartOp.add ⟨"m1", "Hyderabadi Biryani (Chicken)", 220,
          "Fragrant basmati, spices, tender chicken"⟩,
        CartOp.upd "m1" 9007199254740991,
        CartOp.add ⟨"m4", "Gulab Jamun (2pc)", 60, "Warm syrupy dessert"⟩] emptyCart)
        = [some 1981583836043018020, some 60]
    ∧ cartTotal (runOps [CartOp.add ⟨"m1", "Hyderabadi Biryani (Chicken)", 220,
          "Fragrant basmati, spices, tender chicken"⟩,
        CartOp.upd "m1" 9007199254740991,
        CartOp.add ⟨"m4", "Gulab Jamun (2pc)", 60, "Warm syrupy dessert"⟩] emptyCart)
        = .fin 1981583836043017984
    ∧ (1981583836043017984 : Int) ≠ 1981583836043018020 + 60 := by
  refine ⟨by decide, by decide, by decide, by decide, by decide, by decide⟩

/-! ## Validation and submission -/

theorem isAsciiDigit_iff (c : Char) : isAsciiDigit c = true ↔ 48 ≤ c.toNat ∧ c.toNat ≤ 57 := by
  simp [isAsciiDigit]

theorem matchDigitsToEnd_iff (n : Nat) (cs : List Char) :
    matchDigitsToEnd n cs = true ↔ cs.length = n ∧ ∀ c ∈ cs, 48 ≤ c.toNat ∧ c.toNat ≤ 57 := by
  induction n generalizing cs with
  | zero =>
    cases cs with
    | nil => simp [matchDigitsToEnd]
    | cons c cs => simp [matchDigitsToEnd]
  | succ n ih =>
    cases cs with
    | nil => simp [matchDigitsToEnd]
    | cons c cs =>
      simp only [matchDigitsToEnd, Bool.and_eq_true, ih, isAsciiDigit_iff, List.length_cons,
        List.mem_cons, forall_eq_or_imp, Nat.add_right_cancel_iff]
      tauto

theorem testTenDigits_iff (s : AppState) : testTenDigits s.phone = true ↔ ¬ PhoneBad s := by
  simp only [testTenDigits, matchDigitsToEnd_iff, PhoneBad, not_not]

theorem objectKeys_length_eq_zero_iff (s : AppState) :
    (objectKeys s.cart).length = 0 ↔ CartEmpty s := by
  simp [objectKeys, CartEmpty, emptyCart]

/-- C1. `validateReservation` returns the message of the first failing check, in the
order name, phone, cart, date validity, date not more than 60 seconds in the past; it
returns `null` exactly when no check fails, and an instant exactly 60 seconds before the
clock is accepted. -/
theorem validateReservation_first_failure (parseDate : String → Option Int) (now : Int)
    (s : AppState) :
    (NameBlank s → (validateReservation parseDate now s).2 = some "Please enter your name.")
    ∧ (¬ NameBlank s → PhoneBad s →
        (validateReservation parseDate now s).2
          = some "Please enter a valid 10-digit phone number.")
    ∧ (¬ NameBlank s → ¬ PhoneBad s → CartEmpty s →
        (validateReservation parseDate now s).2 = some "Cart is empty. Add items to reserve.")
    ∧ (¬ NameBlank s → ¬ PhoneBad s → ¬ CartEmpty s → DateInvalid parseDate s →
        (validateReservation parseDate now s).2 = some "Please pick a valid date and time.")
    ∧ (¬ NameBlank s → ¬ PhoneBad s → ¬ CartEmpty s → DateTooEarly parseDate now s →
        (validateReservation parseDate now s).2 = some "Please pick a future time.")
    ∧ ((validateReservation parseDate now s).2 = none ↔
        ¬ NameBlank s ∧ ¬ PhoneBad s ∧ ¬ CartEmpty s ∧ ¬ DateInvalid parseDate s
          ∧ ¬ DateTooEarly parseDate now s)
    ∧ (¬ NameBlank s → ¬ PhoneBad s → ¬ CartEmpty s →
        parseDate (s.date ++ "T" ++ s.time) = some (now - 60000) →
        (validateReservation parseDate now s).2 = none) := by
  have hp := testTenDigits_iff s
  have hc := objectKeys_length_eq_zero_iff s
  by_cases h1 : NameBlank s
  · have h1b : jsTrim s.name = "" := h1
    simp [validateReservation, h1, h1b]
  · have h1b : ¬ jsTrim s.name = "" := h1
    by_cases h2 : PhoneBad s
    · have h2b : testTenDigits s.phone = false := by
        cases ht : testTenDigits s.phone with
        | false => rfl
        | true => exact absurd h2 (hp.1 ht)
      simp [validateReservation, h1, h1b, h2, h2b]
    · have h2b : testTenDigits s.phone = true := hp.2 h2
      by_cases h3 : CartEmpty s
      · have h3b : (objectKeys s.cart).length = 0 := hc.2 h3
        simp [validateReservation, h1, h1b, h2, h2b, h3, h3b]
      · have h3b : ¬ (objectKeys s.cart).length = 0 := fun e => h3 (hc.1 e)
        cases h4 : parseDate (s.date ++ "T" ++ s.time) with
        | none =>
          simp [validateReservation, h1, h1b, h2, h2b, h3, h3b, h4, DateInvalid, DateTooEarly]
        | some t =>
          by_cases h5 : t < now - 60000
          · simp [validateReservation, h1, h1b, h2, h2b, h3, h3b, h4, DateInvalid,
              DateTooEarly, h5]
            exact ne_of_lt h5
          · simp [validateReservation, h1, h1b, h2, h2b, h3, h3b, h4, DateInvalid,
              DateTooEarly, h5]

/-- The state that `validateReservation` leaves is the state it met with the error
cleared. -/
theorem validateReservation_state (parseDate : String → Option Int) (now : Int) (s : AppState) :
    (validateReservation parseDate now s).1 = { s with error := "" } := by
  unfold validateReservation
  split
  · rfl
  · split
    · rfl
    · split
      · rfl
      · split
        · rfl
        · split <;> rfl

/-- Every message of `validateReservation` is a non-empty string. -/
theorem validateReservation_message_ne_empty (parseDate : String → Option Int) (now : Int)
    (s : AppState) (v : String) (h : (validateReservation parseDate now s).2 = some v) :
    v ≠ "" := by
  unfold validateReservation at h
  split at h
  · simp at h; rw [← h]; decide
  · split at h
    · simp at h; rw [← h]; decide
    · split at h
      · simp at h; rw [← h]; decide
      · split at h
        · simp at h; rw [← h]; decide
        · split at h
          · simp at h; rw [← h]; decide
          · simp at h

/-- C5. `handleReserve` changes neither the cart, the history nor the form fields; when
`validateReservation` returns `null` it opens the confirm dialog and the error is empty,
otherwise the error is the returned message and `showConfirm` keeps its value; the
history is the same in both cases, so no reservation is created. -/
theorem handleReserve_spec (parseDate : String → Option Int) (now : Int) (s : AppState) :
    (handleReserve parseDate now s).cart = s.cart
    ∧ (handleReserve parseDate now s).reservations = s.reservations
    ∧ (handleReserve parseDate now s).name = s.name
    ∧ (handleReserve parseDate now s).phone = s.phone
    ∧ (handleReserve parseDate now s).mode = s.mode
    ∧ (handleReserve parseDate now s).date = s.date
    ∧ (handleReserve parseDate now s).time = s.time
    ∧ (handleReserve parseDate now s).notes = s.notes
    ∧ ((validateReservation parseDate now s).2 = none →
        (handleReserve parseDate now s).showConfirm = true
          ∧ (handleReserve parseDate now s).error = "")
    ∧ (∀ v, (validateReservation parseDate now s).2 = some v →
        (handleReserve parseDate now s).error = v
          ∧ (handleReserve parseDate now s).showConfirm = s.showConfirm) := by
  have hs := validateReservation_state parseDate now s
  cases hv : (validateReservation parseDate now s).2 with
  | none => simp [handleReserve, hv, hs]
  | some v =>
    have hne := validateReservation_message_ne_empty parseDate now s v hv
    simp [handleReserve, hv, hs, hne]

/-! ## Confirmation and cancellation -/

/-- C2. `confirmReserve` puts exactly one new record in front of the previous history,
empties the cart and resets name, phone and notes (mode, date and time stay); the new
record has status "reserved", the name, phone, mode, date, time and notes of the form
before the call, and one item (id, name, qty, price) per cart line, in the order of the
cart. -/
theorem confirmReserve_spec (now : Int) (createdAt : String) (s : AppState) :
    ∃ r : Reservation,
      (confirmReserve now createdAt s).reservations = r :: s.reservations
      ∧ (confirmReserve now createdAt s).reservations.length = s.reservations.length + 1
      ∧ (confirmReserve now createdAt s).cart = emptyCart
      ∧ (confirmReserve now createdAt s).name = ""
      ∧ (confirmReserve now createdAt s).phone = ""
      ∧ (confirmReserve now createdAt s).notes = ""
      ∧ (confirmReserve now createdAt s).mode = s.mode
      ∧ (confirmReserve now createdAt s).date = s.date
      ∧ (confirmReserve now createdAt s).time = s.time
      ∧ r.status = "reserved"
      ∧ r.name = s.name ∧ r.phone = s.phone ∧ r.mode = s.mode ∧ r.date = s.date
      ∧ r.time = s.time ∧ r.notes = s.notes
      ∧ r.items.length = s.cart.length
      ∧ (∀ i : Nat, r.items[i]? =
          (s.cart[i]?).map (fun p => ⟨p.2.id, p.2.name, p.2.qty, p.2.price⟩)) := by
  refine ⟨_, rfl, ?_, rfl, rfl, rfl, rfl, rfl, rfl, rfl, rfl, rfl, rfl, rfl, rfl, rfl, rfl, ?_, ?_⟩
  · simp [confirmReserve]
  · simp [objectValues]
  · intro i
    simp only [objectValues, List.map_map, List.getElem?_map]
    cases s.cart[i]? <;> rfl

/-- C4. When the prompt is accepted, `cancelReservation(id)` returns a history of the
same length whose record at each position is the original one with status "cancelled"
if its id is `id` and its own status otherwise, every other field being the same; when
the prompt is declined the whole state is unchanged; the cart, the form fields, the
dialog flag and the error are unchanged in both cases. -/
theorem cancelReservation_spec (id : String) (s : AppState) :
    (cancelReservation true id s).reservations.length = s.reservations.length
    ∧ (∀ i : Nat, (cancelReservation true id s).reservations[i]? =
        (s.reservations[i]?).map (fun r =>
          ⟨r.id, r.name, r.phone, r.mode, r.date, r.time, r.notes, r.items, r.total,
            r.createdAt, if r.id = id then "cancelled" else r.status⟩))
    ∧ cancelReservation false id s = s
    ∧ (∀ accepted : Bool,
        (cancelReservation accepted id s).cart = s.cart
        ∧ (cancelReservation accepted id s).name = s.name
        ∧ (cancelReservation accepted id s).phone = s.phone
        ∧ (cancelReservation accepted id s).mode = s.mode
        ∧ (cancelReservation accepted id s).date = s.date
        ∧ (cancelReservation accepted id s).time = s.time
        ∧ (cancelReservation accepted id s).notes = s.notes
        ∧ (cancelReservation accepted id s).showConfirm = s.showConfirm
        ∧ (cancelReservation accepted id s).error = s.error) := by
  refine ⟨?_, ?_, ?_, ?_⟩
  · simp [cancelReservation]
  · intro i
    simp only [cancelReservation, Bool.not_true, Bool.false_eq_true, if_false,
      List.getElem?_map]
    cases s.reservations[i]? with
    | none => rfl
    | some r =>
      simp only [Option.map_some']
      split <;> rfl
  · simp [cancelReservation]
  · intro accepted
    cases accepted <;> simp [cancelReservation]

/-! ## Invariants of the history -/

theorem handleReserve_cases (parseDate : String → Option Int) (now : Int) (s : AppState) :
    ((validateReservation parseDate now s).2 = none
        ∧ handleReserve parseDate now s = { s with error := "", showConfirm := true })
    ∨ (∃ v, (validateReservation parseDate now s).2 = some v
        ∧ handleReserve parseDate now s = { s with error := v }) := by
  have hs := validateReservation_state parseDate now s
  cases hv : (validateReservation parseDate now s).2 with
  | none =>
    left
    simp [handleReserve, hv, hs]
  | some v =>
    right
    have hne := validateReservation_message_ne_empty parseDate now s v hv
    exact ⟨v, rfl, by simp [handleReserve, hv, hs, hne]⟩

theorem totalsInv_initial (today : String) : TotalsInv (initialState today) := by
  refine ⟨cartInv_empty, ?_⟩
  intro r hr
  simp [initialState] at hr

theorem totalOk_payload (now : Int) (createdAt : String) (s : AppState)
    (hc : CartInv s.cart) (r : Reservation)
    (hr : (confirmReserve now createdAt s).reservations = r :: s.reservations) :
    TotalOk r := by
  obtain ⟨amounts, h1, h2⟩ := cartTotal_of_cartInv s.cart hc
  simp only [confirmReserve, List.cons.injEq] at hr
  obtain ⟨hr, _⟩ := hr
  refine ⟨amounts, ?_, ?_⟩
  · rw [← h1, ← hr]
    simp [itemProducts, lineProducts, toReservedItem, Function.comp_def]
  · rw [← hr]
    exact h2

theorem totalsInv_applyEvent (parseDate : String → Option Int) (e : Event) (s : AppState)
    (hinv : TotalsInv s) (he : cartCallFromPage e s = true) :
    TotalsInv (applyEvent parseDate e s) := by
  obtain ⟨hc, hh⟩ := hinv
  cases e with
  | setName v => exact ⟨hc, hh⟩
  | setPhone v => exact ⟨hc, hh⟩
  | setMode v => exact ⟨hc, hh⟩
  | setDate v => exact ⟨hc, hh⟩
  | setTime v => exact ⟨hc, hh⟩
  | setNotes v => exact ⟨hc, hh⟩
  | addToCart item =>
    refine ⟨cartInv_addToCart item s.cart hc ?_, hh⟩
    simpa [cartCallFromPage] using he
  | updateQty id qty =>
    refine ⟨cartInv_updateQty id qty s.cart hc ?_, hh⟩
    simpa [cartCallFromPage] using he
  | clearCart => exact ⟨cartInv_empty, hh⟩
  | handleReserve now =>
    rcases handleReserve_cases parseDate now s with ⟨_, h⟩ | ⟨v, _, h⟩
    · simp only [applyEvent, h]
      exact ⟨hc, hh⟩
    · simp only [applyEvent, h]
      exact ⟨hc, hh⟩
  | closeConfirm => exact ⟨hc, hh⟩
  | confirmReserve now createdAt =>
    refine ⟨cartInv_empty, ?_⟩
    intro r hr
    simp only [applyEvent, confirmReserve, List.mem_cons] at hr
    rcases hr with hr | hr
    · exact totalOk_payload now createdAt s hc r (by rw [hr]; rfl)
    · exact hh r hr
  | cancelReservation id accepted =>
    refine ⟨?_, ?_⟩
    · cases accepted <;> simpa [applyEvent, cancelReservation] using hc
    · intro r hr
      cases accepted with
      | false => exact hh r (by simpa [applyEvent, cancelReservation] using hr)
      | true =>
        simp only [applyEvent, cancelReservation, Bool.not_true, Bool.false_eq_true,
          if_false, List.mem_map] at hr
        obtain ⟨r0, hr0, hr1⟩ := hr
        have h0 := hh r0 hr0
        by_cases hid : r0.id = id
        · rw [if_pos hid] at hr1
          rw [← hr1]
          exact h0
        · rw [if_neg hid] at hr1
          rw [← hr1]
          exact h0

theorem totalsInv_runEvents (parseDate : String → Option Int) (evs : List Event)
    (s : AppState) (hinv : TotalsInv s)
    (h : allEvents cartCallFromPage parseDate evs s = true) :
    TotalsInv (runEvents parseDate evs s) := by
  induction evs generalizing s with
  | nil => exact hinv
  | cons e es ih =>
    simp only [allEvents, Bool.and_eq_true] at h
    exact ih _ (totalsInv_applyEvent parseDate e s hinv h.1) h.2

/-- C3, as the code has it. In every state reached from the initial state by any
sequence of events (field edits, `addToCart` on menu items, `updateQty` with a
non-positive quantity or on a line the cart has, clear-cart, `handleReserve`, closing the
dialog, `confirmReserve` in any state, `cancelReservation` with any id and answer),
every item of every reservation of the history has a price, and the total of the
reservation is the sum of qty × price over its items whenever that sum is at most
`2 ^ 53`. -/
theorem history_total_is_sum (parseDate : String → Option Int) (today : String)
    (evs : List Event)
    (h : allEvents cartCallFromPage parseDate evs (initialState today) = true) :
    ∀ r ∈ (runEvents parseDate evs (initialState today)).reservations,
      ∃ amounts : List Int,
        r.items.map (fun it => it.price.map (fun p => it.qty * p)) = amounts.map some
        ∧ (amounts.sum ≤ 9007199254740992 → r.total = .fin amounts.sum) := by
  intro r hr
  exact (totalsInv_runEvents parseDate evs _ (totalsInv_initial today) h).2 r hr

/-- Witness of `history_total_is_sum`: two biryani and a dosa are reserved, then the
reservation is cancelled; its total stays 530. -/
theorem history_total_is_sum_witness :
    allEvents cartCallFromPage (fun _ => some 0)
        [Event.addToCart ⟨"m1", "Hyderabadi Biryani (Chicken)", 220,
            "Fragrant basmati, spices, tender chicken"⟩,
          Event.addToCart ⟨"m1", "Hyderabadi Biryani (Chicken)", 220,
            "Fragrant basmati, spices, tender chicken"⟩,
          Event.addToCart ⟨"m3", "Street-style Dosa", 90, "Crispy dosa with coconut chutney"⟩,
          Event.confirmReserve 1000 "2026-01-01T00:00:01.000Z",
          Event.cancelReservation "res_1000" true] (initialState "2026-01-01") = true
    ∧ (runEvents (fun _ => some 0)
        [Event.addToCart ⟨"m1", "Hyderabadi Biryani (Chicken)", 220,
            "Fragrant basmati, spices, tender chicken"⟩,
          Event.addToCart ⟨"m1", "Hyderabadi Biryani (Chicken)", 220,
            "Fragrant basmati, spices, tender chicken"⟩,
          Event.addToCart ⟨"m3", "Street-style Dosa", 90, "Crispy dosa with coconut chutney"⟩,
          Event.confirmReserve 1000 "2026-01-01T00:00:01.000Z",
          Event.cancelReservation "res_1000" true]
          (initialState "2026-01-01")).reservations.map
            (fun r => (r.id, r.total, r.status))
        = [("res_1000", JsNum.fin 530, "cancelled")]
    ∧ ∀ r ∈ (runEvents (fun _ => some 0)
        [Event.addToCart ⟨"m1", "Hyderabadi Biryani (Chicken)", 220,
            "Fragrant basmati, spices, tender chicken"⟩,
          Event.addToCart ⟨"m1", "Hyderabadi Biryani (Chicken)", 220,
            "Fragrant basmati, spices, tender chicken"⟩,
          Event.addToCart ⟨"m3", "Street-style Dosa", 90, "Crispy dosa with coconut chutney"⟩,
          Event.confirmReserve 1000 "2026-01-01T00:00:01.000Z",
          Event.cancelReservation "res_1000" true] (initialState "2026-01-01")).reservations,
      ∃ amounts : List Int,
        r.items.map (fun it => it.price.map (fun p => it.qty * p)) = amounts.map some
        ∧ (amounts.sum ≤ 9007199254740992 → r.total = .fin amounts.sum) :=
  ⟨by decide, by decide, history_total_is_sum _ _ _ (by decide)⟩

/-- C3, as stated, fails. After `updateQty("zzz", 5)` and `confirmReserve` the stored
item has no price and the stored total is `NaN`.  After the events of the page add
biryani, set its quantity to `2 ^ 53 - 1`, add gulab jamun, `confirmReserve`, the stored
items have the products 1981583836043018020 and 60, whose sum is 1981583836043018080,
and the stored total is the double 1981583836043017984. -/
theorem history_total_counterexample :
    (runEvents (fun _ => some 0)
        [Event.updateQty "zzz" 5, Event.confirmReserve 1000 "2026-01-01T00:00:01.000Z"]
        (initialState "2026-01-01")).reservations.map (fun r => (itemProducts r, r.total))
      = [([none], JsNum.nan)]
    ∧ allEvents cartCallFromPage (fun _ => some 0)
        [Event.addToCart ⟨"m1", "Hyderabadi Biryani (Chicken)", 220,
            "Fragrant basmati, spices, tender chicken"⟩,
          Event.updateQty "m1" 9007199254740991,
          Event.addToCart ⟨"m4", "Gulab Jamun (2pc)", 60, "Warm syrupy dessert"⟩,
          Event.confirmReserve 1000 "2026-01-01T00:00:01.000Z"]
        (initialState "2026-01-01") = true
    ∧ (runEvents (fun _ => some 0)
        [Event.addToCart ⟨"m1", "Hyderabadi Biryani (Chicken)", 220,
            "Fragrant basmati, spices, tender chicken"⟩,
          Event.updateQty "m1" 9007199254740991,
          Event.addToCart ⟨"m4", "Gulab Jamun (2pc)", 60, "Warm syrupy dessert"⟩,
          Event.confirmReserve 1000 "2026-01-01T00:00:01.000Z"]
        (initialState "2026-01-01")).reservations.map (fun r => (itemProducts r, r.total))
      = [([some 1981583836043018020, some 60], JsNum.fin 1981583836043017984)]
    ∧ (1981583836043017984 : Int) ≠ 1981583836043018020 + 60 := by
  refine ⟨by decide, by decide, by decide, by decide⟩

/-! ## Validation before confirmation -/

/-- C10: the code stores a record that fails validation. The form is filled in with a
valid name and phone, an item is added, and `handleReserve` passes validation and opens
the confirm dialog.  The name is then edited to the empty string while the dialog is
shown: `validateReservation` would now return "Please enter your name.", but
`confirmReserve`, whose button the dialog shows, stores the record with the empty
name. -/
theorem confirm_after_edit_stores_invalid_record :
    (runEvents (fun _ => some 0)
        [Event.setName "Asha", Event.setPhone "9876543210",
          Event.addToCart ⟨"m4", "Gulab Jamun (2pc)", 60, "Warm syrupy dessert"⟩,
          Event.handleReserve 0] (initialState "1970-01-01")).showConfirm = true
    ∧ allEvents eventFromPage (fun _ => some 0)
        [Event.setName "Asha", Event.setPhone "9876543210",
          Event.addToCart ⟨"m4", "Gulab Jamun (2pc)", 60, "Warm syrupy dessert"⟩,
          Event.handleReserve 0, Event.setName "",
          Event.confirmReserve 5 "1970-01-01T00:00:00.005Z"] (initialState "1970-01-01") = true
    ∧ (validateReservation (fun _ => some 0) 5
        (runEvents (fun _ => some 0)
          [Event.setName "Asha", Event.setPhone "9876543210",
            Event.addToCart ⟨"m4", "Gulab Jamun (2pc)", 60, "Warm syrupy dessert"⟩,
            Event.handleReserve 0, Event.setName ""] (initialState "1970-01-01"))).2
        = some "Please enter your name."
    ∧ ((runEvents (fun _ => some 0)
        [Event.setName "Asha", Event.setPhone "9876543210",
          Event.addToCart ⟨"m4", "Gulab Jamun (2pc)", 60, "Warm syrupy dessert"⟩,
          Event.handleReserve 0, Event.setName "",
          Event.confirmReserve 5 "1970-01-01T00:00:00.005Z"]
          (initialState "1970-01-01")).reservations.map
            (fun r => (r.id, r.name, jsTrim r.name, r.phone, r.status)))
        = [("res_5", "", "", "9876543210", "reserved")] := by
  refine ⟨by decide, by decide, by decide, by decide⟩

end FoodReserve
